import Mathlib

/-!
Verification development for a five-stage MIPS pipeline simulator.

The development shallowly embeds the simulator sources:
* `ir.py`      : register and instruction enumerations, instruction nodes;
* `cpu.py`     : the pipelined CPU (stages IF/ID/EX/MEM/WB, hazard logic,
                 forwarding, branch flush), driven cycle by cycle;
* `logger.py`  : the event stream and the diagram reconstructor;
* `mips_parser.py` : the line grammar (a regular expression) and node builder;
* `p1.py`      : the driver snapshot of the register table.

Python dictionaries keyed by registers become functions `Reg -> Option Int`
(`none` = key absent); fallible Python code (uncaught exceptions such as
ValueError, RuntimeError, KeyError, IndexError) becomes `Option`-returning
functions, `none` meaning the simulation aborts.  Machine integers are exact
in Python, hence `Int` here.
-/

/-- `MIPSRegister` (ir.py): the Python `IntEnum` is embedded as its integer
code; `ZERO = 0`, the ABI codes 1..31, and the pseudo register `PC = 64`. -/
abbrev Reg := Nat

def rZERO : Reg := 0
def rT0 : Reg := 8
def rT1 : Reg := 9
def rT7 : Reg := 15
def rS0 : Reg := 16
def rS7 : Reg := 23
def rT8 : Reg := 24
def rT9 : Reg := 25
def rPC : Reg := 64

/-- `MIPSInstruction` (ir.py). -/
inductive MIPSInstruction where
  | NOP | ADD | AND | OR | SLT | BEQ | BNE | ADDI | ANDI | ORI | SLTI
deriving DecidableEq, Repr

namespace MIPSInstruction

/-- `MIPSInstruction.isArithmetic` (ir.py): form `INST rd,rs,rt`. -/
def isArithmetic : MIPSInstruction → Bool
  | ADD | AND | OR | SLT => true
  | _ => false

/-- `MIPSInstruction.isImmediate` (ir.py): form `INST rd,rs,imm`. -/
def isImmediate : MIPSInstruction → Bool
  | ADDI | ANDI | ORI | SLTI => true
  | _ => false

/-- `MIPSInstruction.isBranch` (ir.py): form `INST rs,rt,target`. -/
def isBranch : MIPSInstruction → Bool
  | BEQ | BNE => true
  | _ => false

end MIPSInstruction

/-- `Node` (ir.py).  The Python fields `rd`, `rs`, `rt`, `immediate` are
`None` when the instruction form does not carry them; the CPU only ever reads
`rd` on arithmetic and immediate forms, `rt` on arithmetic and branch forms,
`immediate` on immediate forms and `target` on branch forms, so the absent
(`None`) case is encoded by the default value, which those code paths never
observe. -/
structure Node where
  text : String := ""
  label : Option String := none
  inst : MIPSInstruction
  rd : Reg := 0
  rs : Reg := 0
  rt : Reg := 0
  immediate : Int := 0
  target : String := ""
deriving DecidableEq, Repr

/-- Execution ids (`ExId` in logger.py): integers, negative for the synthetic
diagram rows. -/
abbrev ExId := Int

/-- `PipelineContext` / `IFContext` (cpu.py): IF -> ID latch contents. -/
structure IFContext where
  exId : ExId
  node : Node
deriving DecidableEq, Repr

/-- `IDContext` (cpu.py): ID -> EX latch contents. -/
structure IDContext where
  exId : ExId
  node : Node
  rdTarget : Reg
  stalled : Bool := false
deriving DecidableEq, Repr

/-- `EXContext` / `MEMContext` (cpu.py): EX -> MEM -> WB latch contents. -/
structure EXContext where
  exId : ExId
  node : Node
  rdValue : Int
  rdTarget : Reg
deriving DecidableEq, Repr

/-- `EXContext.__init__` (cpu.py) stores `rdTarget or source.rdTarget`.
Python truthiness makes both `None` and `MIPSRegister.ZERO` (integer value
0) falsy, so a ZERO write target passed by the caller is silently replaced
by the ID-stage target held in `source` — for a not-taken branch that
target is PC, which later triggers a spurious flush and a PC write at WB. -/
def EXContext.make (source : IDContext) (rdValue : Int) (rdTarget : Reg) :
    EXContext :=
  { exId := source.exId, node := source.node, rdValue := rdValue,
    rdTarget := if rdTarget = rZERO then source.rdTarget else rdTarget }

/-- The events of logger.py as a sum type.  `EndOfCycleEvent` carries
`exId = None` in Python; the embedding keeps only its cycle. -/
inductive LogEvent where
  | instructionFetch (exId : ExId) (cycle : Int) (node : Node)
  | stageAdvance (exId : ExId) (cycle : Int) (stage : String)
  | pipelineStall (exId : ExId) (cycle : Int) (stage : String) (stalls : Int)
  | pipelineExit (exId : ExId) (cycle : Int)
  | endOfCycle (cycle : Int)
deriving DecidableEq, Repr

/-- The state of `class CPU` (cpu.py).  The dictionaries `registers` and
`registerAvailability` are functions to `Option Int` (`none` = absent key). -/
structure CPUState where
  forwarding : Bool
  currentCycle : Int
  registers : Reg → Option Int
  registerAvailability : Reg → Option Int
  instructions : List Node
  nextExId : ExId
  pipeline_id : Option IFContext
  pipeline_ex : Option IDContext
  pipeline_mem : Option EXContext
  pipeline_wb : Option EXContext

namespace CPUState

/-- Point update of a register map (`d[k] = v`). -/
def updMap (m : Reg → Option Int) (k : Reg) (v : Int) : Reg → Option Int :=
  fun x => if x = k then some v else m x

/-- `dict.setdefault(k, v)`: insert `v` at `k` when `k` is absent. -/
def setdefaultMap (m : Reg → Option Int) (k : Reg) (v : Int) : Reg → Option Int :=
  fun x => if x = k then some ((m k).getD v) else m x

/-- `CPU.__init__` (cpu.py). -/
def init (src : List Node) (forwarding : Bool) : CPUState where
  forwarding := forwarding
  currentCycle := 0
  registers := fun _ => none
  registerAvailability := fun _ => none
  instructions := src
  nextExId := 0
  pipeline_id := none
  pipeline_ex := none
  pipeline_mem := none
  pipeline_wb := none

/-- The value the `CPU.pc` property reads (`registers.setdefault(PC, 0)`);
the `setdefault` insertion of the key is applied by the call sites that
perform it. -/
def pcVal (s : CPUState) : Int :=
  (s.registers rPC).getD 0

/-- `CPU.register` (cpu.py): `registers.setdefault(reg, 0)`, the value read.
The insertion side effect only materialises the default 0 and is invisible
to every later read. -/
def registerRead (s : CPUState) (reg : Reg) : Int :=
  (s.registers reg).getD 0

/-- `CPU.running` (cpu.py). -/
def running (s : CPUState) : Bool :=
  decide (s.pcVal < (s.instructions.length : Int))
    || s.pipeline_id.isSome || s.pipeline_ex.isSome
    || s.pipeline_mem.isSome || s.pipeline_wb.isSome

/-- Python list indexing `l[i]`: negative indices count from the end,
anything out of range raises IndexError (`none`). -/
def pyListGet (l : List Node) (i : Int) : Option Node :=
  if 0 ≤ i then l.get? i.toNat
  else
    let j : Int := (l.length : Int) + i
    if 0 ≤ j then l.get? j.toNat else none

/-- `CPU._applyIF` (cpu.py). -/
def applyIF (s : CPUState) : Option (CPUState × List LogEvent) :=
  if s.pipeline_id.isSome then some (s, [])
  else
    -- pc = self.pc  (property: registers.setdefault(PC, 0))
    let regs0 := setdefaultMap s.registers rPC 0
    let pc := (regs0 rPC).getD 0
    let s0 := { s with registers := regs0 }
    if (s0.instructions.length : Int) ≤ pc then some (s0, [])
    else
      match pyListGet s0.instructions pc with
      | none => none
      | some node =>
        let exId := s0.nextExId
        some ({ s0 with
                  nextExId := exId + 1,
                  registers := updMap regs0 rPC (pc + 1),
                  pipeline_id := some ⟨exId, node⟩ },
              [.instructionFetch exId s.currentCycle node])

/-- `CPU._applyID` (cpu.py). -/
def applyID (s : CPUState) : CPUState × List LogEvent :=
  match s.pipeline_id with
  | none => (s, [])
  | some context =>
    if s.pipeline_ex.isSome then
      (s, [.pipelineStall context.exId s.currentCycle "IF" 0])
    else
      let inst := context.node.inst
      let rdTarget : Reg :=
        if inst.isArithmetic || inst.isImmediate then context.node.rd
        else if inst.isBranch then rPC
        else rZERO
      ({ s with
           pipeline_id := none,
           pipeline_ex := some ⟨context.exId, context.node, rdTarget, false⟩ },
       [.stageAdvance context.exId s.currentCycle "ID"])

/-- `CPU._getExRegister` (cpu.py): value and first cycle of availability. -/
def getExRegister (s : CPUState) (reg : Reg) : Int × Int :=
  let available := (s.registerAvailability reg).getD 0
  let value := (s.registers reg).getD 0
  if available ≤ s.currentCycle then (available, value)
  else if s.forwarding then
    match s.pipeline_mem with
    | some m =>
      if m.rdTarget = reg then (s.currentCycle, m.rdValue)
      else
        match s.pipeline_wb with
        | some w =>
          if w.rdTarget = reg then (s.currentCycle, w.rdValue)
          else (available, value)
        | none => (available, value)
    | none =>
      match s.pipeline_wb with
      | some w =>
        if w.rdTarget = reg then (s.currentCycle, w.rdValue)
        else (available, value)
      | none => (available, value)
  else (available, value)

/-- `CPU._getExInputs` (cpu.py).  For `NOP` Python returns `(0, None, None)`;
the two `None` operand values are never consumed (`_computeEx` raises on
`NOP` before reading them), so they are encoded as 0. -/
def getExInputs (s : CPUState) (node : Node) : Int × Int × Int :=
  if node.inst = .NOP then (0, 0, 0)
  else
    let (rsAvail, rsValue) := s.getExRegister node.rs
    if node.inst.isImmediate then (rsAvail, rsValue, node.immediate)
    else
      let (rtAvail, rtValue) := s.getExRegister node.rt
      (max rsAvail rtAvail, rsValue, rtValue)

/-- `CPU._acquireRegisterLock` (cpu.py). -/
def acquireRegisterLock (s : CPUState) (reg : Reg) (duration : Int) : CPUState :=
  if reg = rZERO ∨ reg = rPC then s
  else
    let releaseCycle := max ((s.registerAvailability reg).getD 0) (s.currentCycle + duration)
    { s with registerAvailability := updMap s.registerAvailability reg releaseCycle }

/-- `CPU._computeEx` (cpu.py); `none` is the `ValueError` raised on an
instruction outside the table (only `NOP`). -/
def computeEx (inst : MIPSInstruction) (rS rT : Int) : Option Int :=
  match inst with
  | .ADD | .ADDI => some (rS + rT)
  | .AND | .ANDI => some (Int.land rS rT)
  | .OR | .ORI => some (Int.lor rS rT)
  | .SLT | .SLTI => some (if rS < rT then 1 else 0)
  | .BEQ => some (if rS = rT then 1 else 0)
  | .BNE => some (if rS ≠ rT then 1 else 0)
  | .NOP => none

/-- `CPU._computeJumpTarget` (cpu.py): index of the first node carrying the
label; `none` is the `RuntimeError` on an unresolved label. -/
def computeJumpTarget (instructions : List Node) (target : String) : Option Int :=
  (instructions.findIdx? (fun node => node.label = some target)).map Int.ofNat

/-- `CPU._applyEX` (cpu.py). -/
def applyEX (s : CPUState) : Option (CPUState × List LogEvent) :=
  match s.pipeline_ex with
  | none => some (s, [])
  | some context =>
    let node := context.node
    let inst := node.inst
    let (available, rsValue, rtValue) := s.getExInputs node
    let now := if s.forwarding then s.currentCycle else s.currentCycle - 1
    if now < available then
      -- ID block
      let ev : LogEvent :=
        if !context.stalled then
          .pipelineStall context.exId s.currentCycle "ID" (available - now)
        else
          .pipelineStall context.exId s.currentCycle "ID" 0
      some ({ s with pipeline_ex := some { context with stalled := true } }, [ev])
    else if s.pipeline_mem.isSome then
      -- EX blocked
      some (s, [.pipelineStall context.exId s.currentCycle "ID" 0])
    else
      let s1 :=
        if inst.isArithmetic || inst.isImmediate then
          s.acquireRegisterLock node.rd 2
        else s
      match computeEx inst rsValue rtValue with
      | none => none
      | some result0 =>
        let resTgt : Option (Int × Reg) :=
          if inst.isBranch then
            if result0 ≠ 0 then
              match computeJumpTarget s1.instructions node.target with
              | none => none
              | some t => some (t, rPC)
            else some (0, rZERO)
          else some (result0, context.rdTarget)
        match resTgt with
        | none => none
        | some (result, rdTarget) =>
          some ({ s1 with
                    pipeline_ex := none,
                    pipeline_mem := some (EXContext.make context result rdTarget) },
                [.stageAdvance context.exId s.currentCycle "EX"])

/-- `CPU._applyMEM` (cpu.py). -/
def applyMEM (s : CPUState) : CPUState × List LogEvent :=
  match s.pipeline_mem with
  | none => (s, [])
  | some context =>
    if s.pipeline_wb.isSome then
      (s, [.pipelineStall context.exId s.currentCycle "EX" 0])
    else
      ({ s with pipeline_mem := none, pipeline_wb := some context },
       [.stageAdvance context.exId s.currentCycle "MEM"])

/-- `CPU._applyWB` (cpu.py).  The Python flush test
`(rd == PC) and (context.rdValue != self.pc)` short-circuits, so the `pc`
property (and its `setdefault` insertion) runs only when `rd == PC`. -/
def applyWB (s : CPUState) : CPUState × List LogEvent :=
  match s.pipeline_wb with
  | none => (s, [])
  | some context =>
    let rd := context.rdTarget
    let (flush, s0) :=
      if rd = rPC then
        let regs1 := setdefaultMap s.registers rPC 0
        (decide (context.rdValue ≠ (regs1 rPC).getD 0), { s with registers := regs1 })
      else (false, s)
    let (s1, evs1) :=
      if flush then
        let evMem := match s0.pipeline_mem with
          | some m => [LogEvent.stageAdvance m.exId s0.currentCycle "*"]
          | none => []
        let evEx := match s0.pipeline_ex with
          | some e => [LogEvent.stageAdvance e.exId s0.currentCycle "*"]
          | none => []
        let evId := match s0.pipeline_id with
          | some i => [LogEvent.stageAdvance i.exId s0.currentCycle "*"]
          | none => []
        ({ s0 with
             pipeline_mem := none, pipeline_ex := none, pipeline_id := none,
             registerAvailability := fun _ => none },
         evMem ++ evEx ++ evId)
      else (s0, [])
    let regs2 :=
      if rd ≠ rZERO then updMap s1.registers rd context.rdValue
      else s1.registers
    ({ s1 with registers := regs2, pipeline_wb := none },
     evs1 ++ [.stageAdvance context.exId s.currentCycle "WB",
              .pipelineExit context.exId s.currentCycle])

/-- `CPU.cycle` (cpu.py): the five stages in reverse pipeline order, then the
end-of-cycle event and the cycle increment.  The Python generator is always
drained completely by the driver, so the cycle is a single atomic step. -/
def cycle (s : CPUState) : Option (CPUState × List LogEvent) :=
  let r1 := applyWB s
  let r2 := applyMEM r1.1
  match applyEX r2.1 with
  | none => none
  | some r3 =>
    let r4 := applyID r3.1
    match applyIF r4.1 with
    | none => none
    | some r5 =>
      some ({ r5.1 with currentCycle := r5.1.currentCycle + 1 },
            r1.2 ++ r2.2 ++ r3.2 ++ r4.2 ++ r5.2
              ++ [.endOfCycle s.currentCycle])

/-- Iterate `cycle`; a fatal error (`none`) stops the run at the state
reached so far. -/
def runCycles : Nat → CPUState → CPUState
  | 0, s => s
  | n + 1, s =>
    match cycle s with
    | none => s
    | some (s', _) => runCycles n s'

end CPUState

/-- `LogEntry` (logger.py): one diagram row.  `slots` is the sparse list of
stage labels indexed by `cycle - startCycle` (`none` = Python `None`).  The
`_strcache` field is a pure rendering cache and carries no information, so it
is not modelled. -/
structure LogEntry where
  exId : ExId
  node : Node
  startCycle : Int
  width : Int
  slots : List (Option String) := []
deriving DecidableEq, Repr

/-- Python list item assignment `l[i] = v`: negative indices count from the
end; out of range raises IndexError (`none`). -/
def pySetItem (l : List (Option String)) (i : Int) (v : String) :
    Option (List (Option String)) :=
  if 0 ≤ i ∧ i < (l.length : Int) then
    some (l.set i.toNat (some v))
  else if -(l.length : Int) ≤ i ∧ i < 0 then
    some (l.set ((l.length : Int) + i).toNat (some v))
  else none

namespace LogEntry

/-- `LogEntry.markCycle` (logger.py).  Note the source extends the slot list
by `1 + len(slots) - offset` entries (not `1 + offset - len(slots)`); a
negative count is an empty extension in Python, after which the assignment
raises IndexError (`none`). -/
def markCycle (e : LogEntry) (cycle : Int) (name : String) : Option LogEntry :=
  let offset : Int := cycle - e.startCycle
  let slots1 :=
    if (e.slots.length : Int) ≤ offset then
      e.slots ++ List.replicate (1 + (e.slots.length : Int) - offset).toNat none
    else e.slots
  match pySetItem slots1 offset name with
  | none => none
  | some slots2 => some { e with slots := slots2 }

/-- The label printed for row `e` in 1-based display column `col` by
`LogEntry.__str__` (logger.py): columns before `startCycle` and empty or
missing slots render as a dot. -/
def displayCell (e : LogEntry) (col : Int) : String :=
  let offset : Int := (col - 1) - e.startCycle
  if offset < 0 then "."
  else
    match e.slots.get? offset.toNat with
    | some (some label) => label
    | _ => "."

end LogEntry

/-- The state of `class Logger` (logger.py).  Python rows are heap objects
aliased by several containers; every row in any run is uniquely identified by
its `exId` (the CPU mints distinct nonnegative ids; the logger mints distinct
negative ids for synthetic rows), so the embedding stores row data in `store`
keyed by id, and `history`, `current` and `cycleMissed` hold ids.  Two equal
ids in `history` are the same Python object, which is exactly how
`insertNop` aliases its rows. -/
structure Logger where
  cycles : Int
  history : List ExId
  store : ExId → Option LogEntry
  current : List ExId
  cycleMissed : List ExId
  fakeExId : ExId

namespace Logger

/-- `Logger.__init__` (logger.py). -/
def init (cycles : Int) : Logger where
  cycles := cycles
  history := []
  store := fun _ => none
  current := []
  cycleMissed := []
  fakeExId := -1

def storeSet (m : ExId → Option LogEntry) (k : ExId) (v : LogEntry) :
    ExId → Option LogEntry :=
  fun x => if x = k then some v else m x

/-- Membership in an id set (`current` keys / `cycleMissed`). -/
def idMem (l : List ExId) (x : ExId) : Bool := l.contains x

def idInsert (l : List ExId) (x : ExId) : List ExId :=
  if l.contains x then l else l ++ [x]

def idRemove (l : List ExId) (x : ExId) : List ExId :=
  l.filter (fun y => y ≠ x)

/-- `Logger.lookupIndex` (logger.py): index of the LAST occurrence of the row
in `history` (`len - reversed.index - 1`); `none` is the ValueError when the
row is absent. -/
def lookupIndex (l : Logger) (entryId : ExId) : Option Nat :=
  match (l.history.reverse).findIdx? (fun y => y = entryId) with
  | none => none
  | some revIdx => some (l.history.length - revIdx - 1)

/-- The `Node(text='nop', inst=MIPSInstruction.NOP, rs=None)` built by
`Logger.insertNop`. -/
def nopNode : Node := { text := "nop", inst := .NOP }

/-- `Logger.insertNop` (logger.py).  One `LogEntry` object is created and the
SAME object is inserted `count` times, so all inserted rows share one fresh
negative id. -/
def insertNop (l : Logger) (entryId : ExId) (count : Int) : Option Logger := do
  let index ← l.lookupIndex entryId
  let entry ← l.store entryId
  let nop0 : LogEntry :=
    { exId := l.fakeExId, node := nopNode, startCycle := entry.startCycle,
      width := l.cycles }
  let fake' := l.fakeExId - 1
  let nop1 ← nop0.markCycle entry.startCycle "IF"
  let nop2 ← nop1.markCycle (entry.startCycle + 1) "ID"
  some { l with
           history := l.history.take index
                        ++ List.replicate count.toNat nop2.exId
                        ++ l.history.drop index,
           store := storeSet l.store nop2.exId nop2,
           current := idInsert l.current nop2.exId,
           cycleMissed := idInsert l.cycleMissed nop2.exId,
           fakeExId := fake' }

/-- The body of the `EndOfCycleEvent` loop in `Logger.update` for one missed
row: mark the current cell with `"*"`; evict and freeze rows older than four
cycles.  Python `dict.pop` without default raises KeyError on an absent key
(`none`). -/
def endOfCycleStep (cycle : Int) (l : Logger) (entryId : ExId) : Option Logger := do
  let entry ← l.store entryId
  let entry1 ← entry.markCycle cycle "*"
  let l1 := { l with store := storeSet l.store entryId entry1 }
  if entry1.startCycle ≤ cycle - 4 then
    if idMem l1.current entryId then
      some { l1 with current := idRemove l1.current entryId }
    else none
  else some l1

/-- `Logger.update` (logger.py).  The `EndOfCycleEvent` branch iterates a
Python set whose order is unspecified; the per-row effects touch disjoint
rows, so the embedding iterates `cycleMissed` in list order. -/
def update (l : Logger) (event : LogEvent) : Option Logger :=
  match event with
  | .instructionFetch exId cycle node => do
    let entry0 : LogEntry :=
      { exId := exId, node := node, startCycle := cycle, width := l.cycles }
    let entry1 ← entry0.markCycle cycle "IF"
    some { l with
             history := l.history ++ [exId],
             store := storeSet l.store exId entry1,
             current := idInsert l.current exId }
  | .stageAdvance exId cycle stage => do
    if idMem l.current exId then
      let entry ← l.store exId
      let entry1 ← entry.markCycle cycle stage
      some { l with
               store := storeSet l.store exId entry1,
               cycleMissed := idRemove l.cycleMissed exId }
    else none
  | .pipelineStall exId cycle stage stalls => do
    if idMem l.current exId then
      let entry ← l.store exId
      let entry1 ← entry.markCycle cycle stage
      let l1 := { l with
                    store := storeSet l.store exId entry1,
                    cycleMissed := idRemove l.cycleMissed exId }
      if 0 < stalls then l1.insertNop exId stalls else some l1
    else none
  | .pipelineExit exId _ => do
    if idMem l.current exId then
      some { l with
               current := idRemove l.current exId,
               cycleMissed := idRemove l.cycleMissed exId }
    else none
  | .endOfCycle cycle => do
    let l1 ← l.cycleMissed.foldlM (endOfCycleStep cycle) l
    some { l1 with cycleMissed := l1.current }

end Logger

/-- One driver step: run a CPU cycle and route every emitted event to the
diagram reconstructor, in order. -/
def runSim : Nat → CPUState → Logger → Option (CPUState × Logger × List LogEvent)
  | 0, s, l => some (s, l, [])
  | n + 1, s, l => do
    let (s1, evs) ← s.cycle
    let l1 ← evs.foldlM Logger.update l
    let (s2, l2, rest) ← runSim n s1 l1
    some (s2, l2, evs ++ rest)

/-!
Embedding of mips_parser.py.  The line grammar is the regular expression

  ^\s*(?:(?P<label>\w+):)?\s*(?P<text>(?P<inst>\w+)\s+(?P<arg1>REG)\s*,\s*
  (?P<arg2>REG)\s*,\s*(?:(?P<arg3>REG)|(?P<immediate>\d+)|(?P<target>\w+)))\s*$

with REG = \$(?:\d{1,2}|zero|a[t0-3]|[kv][01]|t[0-9]|s[0-7]|[gsf]p|ra),
compiled with MULTILINE and scanned by re.finditer.  The embedding matches
the pattern against one line at a time (anchored at both ends), exploring
alternatives in the regex preference order (greedy quantifiers longest
first, alternation left to right) and taking the first full match, which is
the match the Python engine produces. -/

namespace MipsParser

/-- `\w` on the ASCII inputs the grammar accepts. -/
def isWordChar (c : Char) : Bool := c.isAlphanum || c = '_'

/-- `\s` (Python whitespace). -/
def isSpaceChar (c : Char) : Bool :=
  c = ' ' || c = '\t' || c = '\n' || c = '\r' || c = '\x0b' || c = '\x0c'

/-- Length of the maximal run of characters satisfying `p`. -/
def runLen (p : Char → Bool) : List Char → Nat
  | [] => 0
  | c :: cs => if p c then runLen p cs + 1 else 0

/-- Candidates for `p*`: remaining suffixes, greedy (longest consumed) first. -/
def starCands (p : Char → Bool) (cs : List Char) : List (List Char) :=
  let k := runLen p cs
  (List.range (k + 1)).map (fun i => cs.drop (k - i))

/-- Candidates for `p+`. -/
def plusCands (p : Char → Bool) (cs : List Char) : List (List Char) :=
  let k := runLen p cs
  (List.range k).map (fun i => cs.drop (k - i))

/-- Candidates for a captured `p+` group: captured text and rest. -/
def tokPlusCands (p : Char → Bool) (cs : List Char) : List (String × List Char) :=
  let k := runLen p cs
  (List.range k).map (fun i => (String.mk (cs.take (k - i)), cs.drop (k - i)))

/-- A literal character. -/
def litCands (c : Char) : List Char → List (List Char)
  | c' :: rest => if c' = c then [rest] else []
  | [] => []

/-- A fixed literal string. -/
def strCands (lit : List Char) (cs : List Char) : List (List Char) :=
  if cs.take lit.length = lit then [cs.drop lit.length] else []

/-- Candidates for the register token REG, in the alternation order of the
pattern; every candidate includes the leading dollar sign. -/
def regTokCands (cs : List Char) : List (String × List Char) :=
  match cs with
  | '$' :: rest =>
    let mk (body : List Char) (rem : List Char) : String × List Char :=
      (String.mk ('$' :: body), rem)
    -- \d{1,2} (greedy: two digits preferred)
    (match rest with
     | d1 :: d2 :: r =>
       (if d1.isDigit && d2.isDigit then [mk [d1, d2] r] else [])
         ++ (if d1.isDigit then [mk [d1] (d2 :: r)] else [])
     | [d1] => if d1.isDigit then [mk [d1] []] else []
     | [] => [])
    -- zero
    ++ ((strCands ['z','e','r','o'] rest).map (mk ['z','e','r','o']))
    -- a[t0-3]
    ++ (match rest with
        | 'a' :: c :: r =>
          if c = 't' || c = '0' || c = '1' || c = '2' || c = '3' then
            [mk ['a', c] r]
          else []
        | _ => [])
    -- [kv][01]
    ++ (match rest with
        | k :: c :: r =>
          if (k = 'k' || k = 'v') && (c = '0' || c = '1') then [mk [k, c] r]
          else []
        | _ => [])
    -- t[0-9]
    ++ (match rest with
        | 't' :: c :: r => if c.isDigit then [mk ['t', c] r] else []
        | _ => [])
    -- s[0-7]
    ++ (match rest with
        | 's' :: c :: r =>
          if c.isDigit && c ≤ '7' then [mk ['s', c] r] else []
        | _ => [])
    -- [gsf]p
    ++ (match rest with
        | k :: 'p' :: r =>
          if k = 'g' || k = 's' || k = 'f' then [mk [k, 'p'] r] else []
        | _ => [])
    -- ra
    ++ ((strCands ['r','a'] rest).map (mk ['r','a']))
  | _ => []

/-- The third operand alternation `(?:arg3|immediate|target)`. -/
inductive ThirdArg where
  | reg (s : String)
  | imm (s : String)
  | target (s : String)
deriving DecidableEq, Repr

def thirdCands (cs : List Char) : List (ThirdArg × List Char) :=
  ((regTokCands cs).map (fun (t, r) => (ThirdArg.reg t, r)))
    ++ ((tokPlusCands Char.isDigit cs).map (fun (t, r) => (ThirdArg.imm t, r)))
    ++ ((tokPlusCands isWordChar cs).map (fun (t, r) => (ThirdArg.target t, r)))

/-- Candidates for the optional label group `(?:(?P<label>\w+):)?`:
the present alternatives first (greedy `?`), then the absent one. -/
def labelCands (cs : List Char) : List (Option String × List Char) :=
  ((tokPlusCands isWordChar cs).flatMap
      (fun (l, r) => (litCands ':' r).map (fun r2 => (some l, r2))))
    ++ [(none, cs)]

/-- The named groups of a successful match. -/
structure ReGroups where
  label : Option String
  text : String
  inst : String
  arg1 : String
  arg2 : String
  arg3 : Option String
  immediate : Option String
  target : Option String
deriving DecidableEq, Repr

/-- All full matches of the line pattern, in regex preference order. -/
def matchCands (cs : List Char) : List ReGroups :=
  (starCands isSpaceChar cs).flatMap fun r0 =>
  (labelCands r0).flatMap fun (lab, r1) =>
  (starCands isSpaceChar r1).flatMap fun r2 =>
  (tokPlusCands isWordChar r2).flatMap fun (inst, r3) =>
  (plusCands isSpaceChar r3).flatMap fun r4 =>
  (regTokCands r4).flatMap fun (a1, r5) =>
  (starCands isSpaceChar r5).flatMap fun r6 =>
  (litCands ',' r6).flatMap fun r7 =>
  (starCands isSpaceChar r7).flatMap fun r8 =>
  (regTokCands r8).flatMap fun (a2, r9) =>
  (starCands isSpaceChar r9).flatMap fun r10 =>
  (litCands ',' r10).flatMap fun r11 =>
  (starCands isSpaceChar r11).flatMap fun r12 =>
  (thirdCands r12).flatMap fun (third, r13) =>
  (starCands isSpaceChar r13).flatMap fun r14 =>
  if r14.isEmpty then
    -- the text group spans from the instruction mnemonic to the third operand
    [{ label := lab,
       text := String.mk (r2.take (r2.length - r13.length)),
       inst := inst,
       arg1 := a1,
       arg2 := a2,
       arg3 := match third with | .reg s => some s | _ => none,
       immediate := match third with | .imm s => some s | _ => none,
       target := match third with | .target s => some s | _ => none }]
  else []

/-- Match of the pattern against one source line (no newline inside). -/
def matchLine (line : String) : Option ReGroups :=
  (matchCands line.toList).head?

/-- `Parser._REGISTER_LUT` and `Parser.lookupRegister` (mips_parser.py):
`none` is the ParseError on a name outside the table. -/
def lookupRegister (name : String) : Option Reg :=
  if name = "$0" ∨ name = "$zero" then some 0
  else if name = "$at" then some 1
  else if name = "$v0" then some 2
  else if name = "$v1" then some 3
  else if name = "$a0" then some 4
  else if name = "$a1" then some 5
  else if name = "$a2" then some 6
  else if name = "$a3" then some 7
  else if name = "$t0" then some 8
  else if name = "$t1" then some 9
  else if name = "$t2" then some 10
  else if name = "$t3" then some 11
  else if name = "$t4" then some 12
  else if name = "$t5" then some 13
  else if name = "$t6" then some 14
  else if name = "$t7" then some 15
  else if name = "$s0" then some 16
  else if name = "$s1" then some 17
  else if name = "$s2" then some 18
  else if name = "$s3" then some 19
  else if name = "$s4" then some 20
  else if name = "$s5" then some 21
  else if name = "$s6" then some 22
  else if name = "$s7" then some 23
  else if name = "$t8" then some 24
  else if name = "$t9" then some 25
  else if name = "$k0" then some 26
  else if name = "$k1" then some 27
  else if name = "$gp" then some 28
  else if name = "$sp" then some 29
  else if name = "$fp" then some 30
  else if name = "$ra" then some 31
  else none

/-- `Parser._INSTRUCTION_LUT` and `Parser.lookupInstruction`
(mips_parser.py): `none` is the ParseError on an unknown mnemonic. -/
def lookupInstruction (name : String) : Option MIPSInstruction :=
  if name = "add" then some .ADD
  else if name = "addi" then some .ADDI
  else if name = "and" then some .AND
  else if name = "andi" then some .ANDI
  else if name = "or" then some .OR
  else if name = "ori" then some .ORI
  else if name = "slt" then some .SLT
  else if name = "slti" then some .SLTI
  else if name = "beq" then some .BEQ
  else if name = "bne" then some .BNE
  else none

/-- The error outcomes of `Parser.buildNode` (mips_parser.py). -/
inductive ParseFailure where
  /-- `ParseError`: unknown mnemonic, unknown register, bad immediate. -/
  | parseError (msg : String)
  /-- an uncaught exception (TypeError on a missing immediate group,
  ValueError on a missing branch target or an unexpected form). -/
  | fatal (msg : String)
deriving DecidableEq, Repr

/-- `int(s)` for the `immediate` group: the group matches `\d+`, and
`String.toNat?` accepts exactly those strings; a failure is the ValueError
turned into a ParseError by the source. -/
def parseImmediate (s : String) : Option Int :=
  (s.toNat?).map Int.ofNat

/-- `Parser.buildNode` (mips_parser.py).  Looking up a `None` group in the
register table raises KeyError in Python, reported as a ParseError. -/
def buildNode (g : ReGroups) : Except ParseFailure Node :=
  match lookupInstruction g.inst with
  | none => .error (.parseError ("Unknown instruction: " ++ g.inst))
  | some inst =>
    match lookupRegister g.arg1 with
    | none => .error (.parseError ("Unknown register: " ++ g.arg1))
    | some arg1 =>
      match lookupRegister g.arg2 with
      | none => .error (.parseError ("Unknown register: " ++ g.arg2))
      | some arg2 =>
        if inst.isArithmetic then
          match g.arg3 with
          | none => .error (.parseError "Unknown register: None")
          | some a3 =>
            match lookupRegister a3 with
            | none => .error (.parseError ("Unknown register: " ++ a3))
            | some arg3 =>
              .ok { text := g.text, label := g.label, inst := inst,
                    rd := arg1, rs := arg2, rt := arg3 }
        else if inst.isImmediate then
          match g.immediate with
          | none => .error (.fatal "TypeError: int(None)")
          | some imm =>
            match parseImmediate imm with
            | none => .error (.parseError ("Unable to parse immediate: " ++ imm))
            | some immediate =>
              .ok { text := g.text, label := g.label, inst := inst,
                    rd := arg1, rs := arg2, immediate := immediate }
        else if inst.isBranch then
          match g.target with
          | none => .error (.fatal "ValueError: missing target")
          | some target =>
            .ok { text := g.text, label := g.label, inst := inst,
                  rs := arg1, rt := arg2, target := target }
        else
          .error (.fatal "ValueError: unexpected instruction")

/-- Split source text into lines at newline characters. -/
def splitLines (cs : List Char) : List (List Char) :=
  match cs with
  | [] => [[]]
  | '\n' :: rest => [] :: splitLines rest
  | c :: rest =>
    match splitLines rest with
    | [] => [[c]]
    | l :: ls => (c :: l) :: ls

/-- `Parser.__iter__` (mips_parser.py): `re.finditer` yields the matching
lines — a line the pattern rejects is skipped silently — and `buildNode`
aborts the iteration on its first error. -/
def parseSrc (src : String) : Except ParseFailure (List Node) :=
  (((splitLines src.toList).map String.mk).filterMap matchLine).mapM buildNode

end MipsParser

/-!
Embedding of the driver snapshot (p1.py, `printState`): the register cells
printed after every cycle.
-/

/-- The register name rendering of `MIPSRegister.__str__` (ir.py) for the
registers the snapshot prints. -/
def regName (reg : Reg) : String :=
  if reg = 8 then "$t0" else if reg = 9 then "$t1"
  else if reg = 10 then "$t2" else if reg = 11 then "$t3"
  else if reg = 12 then "$t4" else if reg = 13 then "$t5"
  else if reg = 14 then "$t6" else if reg = 15 then "$t7"
  else if reg = 16 then "$s0" else if reg = 17 then "$s1"
  else if reg = 18 then "$s2" else if reg = 19 then "$s3"
  else if reg = 20 then "$s4" else if reg = 21 then "$s5"
  else if reg = 22 then "$s6" else if reg = 23 then "$s7"
  else if reg = 24 then "$t8" else if reg = 25 then "$t9"
  else "$?"

/-- The register sequence of `printState` (p1.py):
`chain(range(S0, S7+1), range(T0, T7+1), range(T8, T9+1))`. -/
def snapshotRegs : List Reg :=
  List.range' 16 8 ++ List.range' 8 8 ++ List.range' 24 2

/-- One snapshot cell of `printState` (p1.py):
`f-string of reg = (registers[reg] if reg in registers else 3)`. -/
def snapshotCell (s : CPUState) (reg : Reg) : String :=
  regName reg ++ " = " ++
    toString (match s.registers reg with
              | some v => v
              | none => (3 : Int))

/-- All snapshot cells of `printState` (p1.py), in print order; the driver
prints them four to a row, separated by two tab characters. -/
def snapshotCells (s : CPUState) : List String :=
  snapshotRegs.map (snapshotCell s)

-- Equality on parse results is decidable (used to evaluate the parser on
-- concrete inputs).
deriving instance DecidableEq for Except

/-!
Concrete instances used by the theorems below.
-/

/-- The decoded node of `addi $t0,$zero,5`. -/
def addiNode : Node :=
  { text := "addi $t0,$zero,5", inst := .ADDI, rd := rT0, rs := rZERO,
    immediate := 5 }

/-- The decoded node of `add $t1,$t0,$t0`. -/
def addNode : Node :=
  { text := "add $t1,$t0,$t0", inst := .ADD, rd := rT1, rs := rT0, rt := rT0 }

/-- The two-instruction program of scenario S2. -/
def c1prog : List Node := [addiNode, addNode]

/-- Scenario S2 run: forwarding disabled, 8 driver cycles (after which the
pipeline has drained), events routed to a width-16 diagram reconstructor. -/
def c1run : Option (CPUState × Logger × List LogEvent) :=
  runSim 8 (CPUState.init c1prog false) (Logger.init 16)

def c1cpu : CPUState := (c1run.map (fun r => r.1)).getD (CPUState.init c1prog false)

def c1log : Logger := (c1run.map (fun r => r.2.1)).getD (Logger.init 16)

def c1events : List LogEvent := (c1run.map (fun r => r.2.2)).getD []

/-- Recogniser for a PipelineStall event of the given execution id in stage
ID. -/
def isStallIDFor (exId : ExId) (e : LogEvent) : Bool :=
  match e with
  | .pipelineStall i _ stage _ => i = exId && stage = "ID"
  | _ => false

/-- The diagram row of execution id 1 (the `add`) in the S2 run. -/
def c1row1 : LogEntry :=
  (c1log.store 1).getD { exId := 0, node := Logger.nopNode, startCycle := 0, width := 0 }

/-- A small logger run for the NOP-insertion claim: one real row fetched at
cycle 2, then a PipelineStall event in stage ID with `stalls = 2` at
cycle 3. -/
def c6run : Option Logger := do
  let l1 ← Logger.update (Logger.init 16) (.instructionFetch 0 2 addNode)
  Logger.update l1 (.pipelineStall 0 3 "ID" 2)

def c6log : Logger := c6run.getD (Logger.init 16)

/-- The logger state after fetching execution id 0 at cycle 2 (input state
of the NOP-insertion witness). -/
def c6fetchLog : Logger :=
  (Logger.update (Logger.init 16) (.instructionFetch 0 2 addNode)).getD
    (Logger.init 16)

/-- The diagram row of execution id 0 inside `c6fetchLog`. -/
def c6entry0 : LogEntry :=
  { exId := 0, node := addNode, startCycle := 2, width := 16,
    slots := [some "IF"] }

/-- A forwarding-enabled state in which `$t0` is locked until cycle 9 and
both the EX to MEM and MEM to WB latches target `$t0`. -/
def c3state : CPUState :=
  { CPUState.init [] true with
      currentCycle := 5,
      registers := CPUState.updMap (fun _ => none) rT0 1,
      registerAvailability := CPUState.updMap (fun _ => none) rT0 9,
      pipeline_mem := some { exId := 0, node := addNode, rdValue := 42, rdTarget := rT0 },
      pipeline_wb := some { exId := 1, node := addNode, rdValue := 7, rdTarget := rT0 } }

/-- A state whose MEM to WB latch writes 7 to `$t1` (no branch). -/
def c10state : CPUState :=
  { CPUState.init [] false with
      currentCycle := 5,
      registers := CPUState.updMap (fun _ => none) rT0 1,
      registerAvailability := CPUState.updMap (fun _ => none) rT0 9,
      pipeline_id := some { exId := 3, node := addNode },
      pipeline_ex := some { exId := 2, node := addNode, rdTarget := rT1 },
      pipeline_wb := some { exId := 1, node := addNode, rdValue := 7, rdTarget := rT1 } }

/-- A state about to write back a taken branch: the MEM to WB latch targets
PC with value 0 while the current PC is 3, and all younger latches are
occupied. -/
def c5state : CPUState :=
  { CPUState.init [] false with
      currentCycle := 6,
      registers := CPUState.updMap (fun _ => none) rPC 3,
      registerAvailability := CPUState.updMap (fun _ => none) rT0 9,
      pipeline_id := some { exId := 5, node := addNode },
      pipeline_ex := some { exId := 4, node := addNode, rdTarget := rT1 },
      pipeline_mem := some { exId := 3, node := addNode, rdValue := 1, rdTarget := rT0 },
      pipeline_wb := some { exId := 2, node := addNode, rdValue := 0, rdTarget := rPC } }

/-- The flush condition of the WB stage (cpu.py line 414):
`rd == PC and rdValue != pc`. -/
def wbFlushes (s : CPUState) : Bool :=
  match s.pipeline_wb with
  | some ctx => decide (ctx.rdTarget = rPC) && decide (ctx.rdValue ≠ s.pcVal)
  | none => false

/-- The CPU state the EX stage observes inside one `cycle`: the state after
the WB and MEM stages of that cycle have run (cpu.py runs the stages in
reverse pipeline order). -/
def midEX (s : CPUState) : CPUState :=
  (CPUState.applyMEM (CPUState.applyWB s).1).1

/-- The combined operand availability the EX stage computes for a node
(the first component of `_getExInputs`). -/
def combinedAvail (s : CPUState) (node : Node) : Int :=
  (s.getExInputs node).1

/-- The readiness threshold `now` of the EX stage (cpu.py line 354). -/
def exNow (s : CPUState) : Int :=
  if s.forwarding then s.currentCycle else s.currentCycle - 1

/-- A branch whose target label exists nowhere. -/
def beqMissingNode : Node :=
  { text := "beq $t0,$t0,END", inst := .BEQ, rs := rT0, rt := rT0,
    target := "END" }

/-- A state whose EX stage holds a taken branch to an unresolvable label:
operands are ready (availability 0 at cycle 2), but EX aborts. -/
def c2cex : CPUState :=
  { CPUState.init [beqMissingNode] true with
      currentCycle := 2,
      pipeline_ex := some { exId := 0, node := beqMissingNode, rdTarget := rPC } }

/-- A no-forwarding state in which the EX instruction needs `$t0`, locked
until cycle 9 (currentCycle 5), forcing a first stall. -/
def c2state : CPUState :=
  { CPUState.init [] false with
      currentCycle := 5,
      registerAvailability := CPUState.updMap (fun _ => none) rT0 9,
      pipeline_ex := some { exId := 1, node := addNode, rdTarget := rT1 } }

/-- A ready state whose EX stage executes `addi $t0,$zero,5` at cycle 3. -/
def c4state : CPUState :=
  { CPUState.init [] true with
      currentCycle := 3,
      pipeline_ex := some { exId := 0, node := addiNode, rdTarget := rT0 } }

/-- A state whose MEM to WB latch writes to ZERO. -/
def c7state : CPUState :=
  { CPUState.init [] false with
      currentCycle := 4,
      registers := CPUState.updMap (fun _ => none) rT0 5,
      pipeline_wb := some { exId := 0, node := addNode, rdValue := 9,
                            rdTarget := rZERO } }

/-!
Claim theorems.
-/

/-- C1: with forwarding disabled, on `addi $t0,$zero,5` followed by
`add $t1,$t0,$t0`, the second instruction stalls exactly two cycles in ID
(two PipelineStall events of stage ID for execution id 1); the reconstructed
diagram holds exactly two synthetic NOP rows (negative id, NOP node)
immediately before the row of the second instruction; that row displays IF
in column 2, ID in columns 3, 4 and 5, then EX, MEM, WB in columns 6, 7
and 8 (1-based display columns); and at end of simulation the register file
holds 5 in `$t0` and 10 in `$t1`. -/
theorem c1_raw_hazard_no_forwarding :
    c1run.isSome = true
    ∧ c1events.countP (isStallIDFor 1) = 2
    ∧ c1log.history = [0, -1, -1, 1]
    ∧ (c1log.store (-1)).map (fun e => e.node.inst) = some MIPSInstruction.NOP
    ∧ (([2, 3, 4, 5, 6, 7, 8] : List Int).map c1row1.displayCell)
        = ["IF", "ID", "ID", "ID", "EX", "MEM", "WB"]
    ∧ c1cpu.registerRead rT0 = 5
    ∧ c1cpu.registerRead rT1 = 10
    ∧ c1cpu.running = false := by decide

/-- C9 (code bug): the snapshot cells of `printState` (p1.py) render an
unwritten register as `"$name = 3"` — the source defaults a missing key to 3,
not to the register-file default 0 claimed by the specification — and no
cell is padded to a 20-column field (the driver joins cells with two tab
characters).  Written registers do show the current register-file value. -/
theorem c9_snapshot_diverges :
    snapshotCells (CPUState.init [] false)
      = ["$s0 = 3", "$s1 = 3", "$s2 = 3", "$s3 = 3", "$s4 = 3", "$s5 = 3",
         "$s6 = 3", "$s7 = 3", "$t0 = 3", "$t1 = 3", "$t2 = 3", "$t3 = 3",
         "$t4 = 3", "$t5 = 3", "$t6 = 3", "$t7 = 3", "$t8 = 3", "$t9 = 3"]
    ∧ ("$s0 = 3" : String) ≠ "$s0 = 0"
    ∧ (snapshotCells (CPUState.init [] false)).all
        (fun c => c.length ≠ 20) = true
    ∧ snapshotCell c1cpu rT0 = "$t0 = 5"
    ∧ snapshotCell c1cpu rT1 = "$t1 = 10" := by decide

/-- C8 (counterexample): the line `add $t0,$t1,$qq` carries the register
token `$qq`, which is not a recognised register name — yet parsing neither
fails nor keeps the line: the token does not match the register alternation
of the grammar, `re.finditer` therefore never produces a match for the line,
and the parse result is an empty, error-free program.  This refutes the
claim that every line with an unrecognised register token produces a parse
error and that no such line is silently dropped. -/
theorem c8_unknown_register_dropped_silently :
    MipsParser.parseSrc "add $t0,$t1,$qq" = Except.ok []
    ∧ MipsParser.matchLine "add $t0,$t1,$qq" = none := by decide

/-- C8 (amended): a line the grammar rejects — including one whose register
token fails the register alternation, such as `$qq` — is skipped silently;
for a line the grammar accepts, an unrecognised mnemonic or an unrecognised
register token (one matching the register syntax but absent from the table,
such as `$32`) produces a ParseError, and the first such error aborts
parsing, so no grammatical line is dropped without a report. -/
theorem c8_amended_parse_errors :
    (∀ (line : String) (rest : List String),
      MipsParser.matchLine line = none →
        (line :: rest).filterMap MipsParser.matchLine
          = rest.filterMap MipsParser.matchLine)
    ∧ (∀ g : MipsParser.ReGroups,
        MipsParser.lookupInstruction g.inst = none →
          ∃ msg, MipsParser.buildNode g
            = Except.error (MipsParser.ParseFailure.parseError msg))
    ∧ (∀ (g : MipsParser.ReGroups) (inst : MIPSInstruction),
        MipsParser.lookupInstruction g.inst = some inst →
        MipsParser.lookupRegister g.arg1 = none →
          ∃ msg, MipsParser.buildNode g
            = Except.error (MipsParser.ParseFailure.parseError msg))
    ∧ (∀ (g : MipsParser.ReGroups) (gs : List MipsParser.ReGroups)
         (e : MipsParser.ParseFailure),
        MipsParser.buildNode g = Except.error e →
          (g :: gs).mapM MipsParser.buildNode = Except.error e) := by
  refine ⟨?_, ?_, ?_, ?_⟩
  · intro line rest h
    simp [List.filterMap_cons, h]
  · intro g h
    exact ⟨"Unknown instruction: " ++ g.inst, by simp [MipsParser.buildNode, h]⟩
  · intro g inst hi hr
    exact ⟨"Unknown register: " ++ g.arg1, by simp [MipsParser.buildNode, hi, hr]⟩
  · intro g gs e h
    rw [List.mapM_cons, h]
    rfl

/-- C8 (witness): the grammatical line `foo $t0,$t1,$t2` has an unknown
mnemonic and parses to a ParseError that aborts parsing, and `$32` is a
rejected register name on a grammatical line. -/
theorem c8_amended_parse_errors_witness :
    MipsParser.matchLine "add $t0,$t1,$qq" = none
    ∧ ("add $t0,$t1,$qq" :: ["foo $t0,$t1,$t2"]).filterMap MipsParser.matchLine
        = ["foo $t0,$t1,$t2"].filterMap MipsParser.matchLine
    ∧ (∃ msg, MipsParser.parseSrc "foo $t0,$t1,$t2"
        = Except.error (MipsParser.ParseFailure.parseError msg))
    ∧ (∃ msg, MipsParser.parseSrc "add $32,$t1,$t2"
        = Except.error (MipsParser.ParseFailure.parseError msg)) := by
  have h := c8_amended_parse_errors
  refine ⟨by decide, h.1 "add $t0,$t1,$qq" ["foo $t0,$t1,$t2"] (by decide), ?_, ?_⟩
  · exact ⟨"Unknown instruction: foo", by decide⟩
  · exact ⟨"Unknown register: $32", by decide⟩

/-- C6 (counterexample): a PipelineStall event with `stalls = 2` makes the
reconstructor insert two synthetic NOP rows before the stalling row — but
`Logger.insertNop` creates ONE row object and inserts it twice, so the two
inserted rows carry the SAME negative execution id (-1), refuting the claim
that each inserted row carries its own fresh id distinct from every other
synthetic row. -/
theorem c6_shared_exid_counterexample :
    c6run.isSome = true
    ∧ c6log.history = [-1, -1, 0]
    ∧ c6log.history.get? 0 = some (-1)
    ∧ c6log.history.get? 1 = some (-1) := by decide

/-- C6 (amended): for a stall of `stalls > 0` on a row present in the
diagram, `insertNop` inserts exactly `stalls` rows immediately before that
row, but they are all one shared synthetic row: a single fresh id
(`fakeExId`, initialised to -1 and strictly decreasing, hence negative and
never colliding with the nonnegative real ids or with earlier synthetic
rows) names every inserted row, which carries the stalling row startCycle
and is pre-marked IF at offset 0 and ID at offset 1; the shared row is
registered in `current` and `cycleMissed`. -/
theorem c6_amended_shared_nop_row
    (l : Logger) (entryId : ExId) (count : Int) (entry : LogEntry) (i : Nat)
    (hIdx : l.lookupIndex entryId = some i)
    (hStore : l.store entryId = some entry)
    (_hCount : 0 < count) :
    ∃ l', l.insertNop entryId count = some l'
      ∧ l'.history = l.history.take i ++ List.replicate count.toNat l.fakeExId
          ++ l.history.drop i
      ∧ l'.store l.fakeExId
          = some { exId := l.fakeExId, node := Logger.nopNode,
                   startCycle := entry.startCycle, width := l.cycles,
                   slots := [some "IF", some "ID"] }
      ∧ l'.fakeExId = l.fakeExId - 1
      ∧ l'.fakeExId < l.fakeExId
      ∧ l'.current = Logger.idInsert l.current l.fakeExId
      ∧ l'.cycleMissed = Logger.idInsert l.cycleMissed l.fakeExId := by
  have h1 : ({ exId := l.fakeExId, node := Logger.nopNode,
               startCycle := entry.startCycle, width := l.cycles,
               slots := [] } : LogEntry).markCycle entry.startCycle "IF"
      = some { exId := l.fakeExId, node := Logger.nopNode,
               startCycle := entry.startCycle, width := l.cycles,
               slots := [some "IF"] } := by
    simp [LogEntry.markCycle, pySetItem]
  have h2 : ({ exId := l.fakeExId, node := Logger.nopNode,
               startCycle := entry.startCycle, width := l.cycles,
               slots := [some "IF"] } : LogEntry).markCycle
                 (entry.startCycle + 1) "ID"
      = some { exId := l.fakeExId, node := Logger.nopNode,
               startCycle := entry.startCycle, width := l.cycles,
               slots := [some "IF", some "ID"] } := by
    simp [LogEntry.markCycle, pySetItem, add_sub_cancel_left]
  refine ⟨{ l with
              history := l.history.take i
                ++ List.replicate count.toNat l.fakeExId ++ l.history.drop i,
              store := Logger.storeSet l.store l.fakeExId
                { exId := l.fakeExId, node := Logger.nopNode,
                  startCycle := entry.startCycle, width := l.cycles,
                  slots := [some "IF", some "ID"] },
              current := Logger.idInsert l.current l.fakeExId,
              cycleMissed := Logger.idInsert l.cycleMissed l.fakeExId,
              fakeExId := l.fakeExId - 1 },
          ?_, rfl, ?_, rfl, ?_, rfl, rfl⟩
  · simp [Logger.insertNop, hIdx, hStore, h1, h2, Option.bind]
  · simp [Logger.storeSet]
  · exact sub_one_lt l.fakeExId

/-- C6 (witness): inserting two NOP rows before the single row of
`c6fetchLog` yields history `[-1, -1, 0]` — both synthetic rows named by the
one fresh id -1 — by the amended theorem applied at this concrete input. -/
theorem c6_amended_shared_nop_row_witness :
    (c6fetchLog.insertNop 0 2).isSome = true
    ∧ ((c6fetchLog.insertNop 0 2).map Logger.history).getD [] = [-1, -1, 0]
    ∧ ((c6fetchLog.insertNop 0 2).map Logger.fakeExId).getD 0 = -2 := by
  obtain ⟨l', h, hh, -, hf, -, -, -⟩ :=
    c6_amended_shared_nop_row c6fetchLog 0 2 c6entry0 0 (by decide) (by decide)
      (by decide)
  refine ⟨by rw [h]; rfl, ?_, ?_⟩
  · rw [h]
    show l'.history = [-1, -1, 0]
    rw [hh]
    rfl
  · rw [h]
    show l'.fakeExId = -2
    rw [hf]
    rfl

/-- C3: an EX-stage register read returns `(availability, storedValue)` when
the register is available at or before the current cycle; otherwise, with
forwarding enabled, the EX to MEM latch is consulted first and the MEM to WB
latch second, each returning `(currentCycle, latchValue)` when it targets the
register (so the EX to MEM latch takes priority when both target it); in
every remaining case — forwarding disabled, or neither latch targeting the
register — the stale `(availability, storedValue)` pair is returned. -/
theorem c3_ex_register_read (s : CPUState) (reg : Reg) :
    let available := (s.registerAvailability reg).getD 0
    let value := (s.registers reg).getD 0
    (available ≤ s.currentCycle → s.getExRegister reg = (available, value))
    ∧ (s.currentCycle < available → s.forwarding = true →
        ∀ m, s.pipeline_mem = some m → m.rdTarget = reg →
          s.getExRegister reg = (s.currentCycle, m.rdValue))
    ∧ (s.currentCycle < available → s.forwarding = true →
        (∀ m, s.pipeline_mem = some m → m.rdTarget ≠ reg) →
        ∀ w, s.pipeline_wb = some w → w.rdTarget = reg →
          s.getExRegister reg = (s.currentCycle, w.rdValue))
    ∧ (s.currentCycle < available → s.forwarding = true →
        (∀ m, s.pipeline_mem = some m → m.rdTarget ≠ reg) →
        (∀ w, s.pipeline_wb = some w → w.rdTarget ≠ reg) →
          s.getExRegister reg = (available, value))
    ∧ (s.currentCycle < available → s.forwarding = false →
          s.getExRegister reg = (available, value)) := by
  refine ⟨?_, ?_, ?_, ?_, ?_⟩
  · intro h
    simp [CPUState.getExRegister, h]
  · intro h hf m hm hmt
    have hn : ¬ ((s.registerAvailability reg).getD 0 ≤ s.currentCycle) :=
      not_le.2 h
    simp [CPUState.getExRegister, hn, hf, hm, hmt]
  · intro h hf hmne w hw hwt
    have hn : ¬ ((s.registerAvailability reg).getD 0 ≤ s.currentCycle) :=
      not_le.2 h
    cases hmem : s.pipeline_mem with
    | none => simp [CPUState.getExRegister, hn, hf, hmem, hw, hwt]
    | some m' =>
      have hne := hmne m' hmem
      simp [CPUState.getExRegister, hn, hf, hmem, hw, hwt, hne]
  · intro h hf hmne hwne
    have hn : ¬ ((s.registerAvailability reg).getD 0 ≤ s.currentCycle) :=
      not_le.2 h
    cases hmem : s.pipeline_mem with
    | none =>
      cases hwb : s.pipeline_wb with
      | none => simp [CPUState.getExRegister, hn, hf, hmem, hwb]
      | some w' =>
        have hne := hwne w' hwb
        simp [CPUState.getExRegister, hn, hf, hmem, hwb, hne]
    | some m' =>
      have hnem := hmne m' hmem
      cases hwb : s.pipeline_wb with
      | none => simp [CPUState.getExRegister, hn, hf, hmem, hwb, hnem]
      | some w' =>
        have hnew := hwne w' hwb
        simp [CPUState.getExRegister, hn, hf, hmem, hwb, hnem, hnew]
  · intro h hf
    have hn : ¬ ((s.registerAvailability reg).getD 0 ≤ s.currentCycle) :=
      not_le.2 h
    simp [CPUState.getExRegister, hn, hf]

/-- C3 (witness): in `c3state` the lock on `$t0` (cycle 9 > 5) routes the
read to the EX to MEM latch value 42, taking priority over the MEM to WB
latch value 7; an unlocked register reads its stale pair. -/
theorem c3_ex_register_read_witness :
    c3state.getExRegister rT0 = (5, 42)
    ∧ c3state.getExRegister rT1 = (0, 0) := by
  have h := c3_ex_register_read c3state rT0
  have h1 := c3_ex_register_read c3state rT1
  exact ⟨h.2.1 (by decide) (by decide)
           { exId := 0, node := addNode, rdValue := 42, rdTarget := rT0 }
           (by decide) (by decide),
         h1.1 (by decide)⟩

/-- C10: a WB whose latch target is not PC performs no flush: it clears only
the MEM to WB latch and writes at most the one register-file entry of its
target; the other three latches, the availability table, the PC entry, every
other register entry, and the remaining CPU fields are unchanged. -/
theorem c10_wb_frame (s : CPUState) (ctx : EXContext)
    (hwb : s.pipeline_wb = some ctx)
    (hpc : ctx.rdTarget ≠ rPC) :
    ((CPUState.applyWB s).1.pipeline_id = s.pipeline_id)
    ∧ ((CPUState.applyWB s).1.pipeline_ex = s.pipeline_ex)
    ∧ ((CPUState.applyWB s).1.pipeline_mem = s.pipeline_mem)
    ∧ ((CPUState.applyWB s).1.pipeline_wb = none)
    ∧ ((CPUState.applyWB s).1.registerAvailability = s.registerAvailability)
    ∧ ((CPUState.applyWB s).1.registers rPC = s.registers rPC)
    ∧ (∀ reg : Reg, reg ≠ ctx.rdTarget →
        (CPUState.applyWB s).1.registers reg = s.registers reg)
    ∧ ((CPUState.applyWB s).1.currentCycle = s.currentCycle)
    ∧ ((CPUState.applyWB s).1.forwarding = s.forwarding)
    ∧ ((CPUState.applyWB s).1.instructions = s.instructions)
    ∧ ((CPUState.applyWB s).1.nextExId = s.nextExId) := by
  have hzp : rZERO ≠ rPC := by decide
  by_cases hz : ctx.rdTarget = rZERO
  · refine ⟨?_, ?_, ?_, ?_, ?_, ?_, ?_, ?_, ?_, ?_, ?_⟩ <;>
      simp [CPUState.applyWB, hwb, hpc, hz, hzp]
  · have hPCne : rPC ≠ ctx.rdTarget := fun hh => hpc hh.symm
    refine ⟨?_, ?_, ?_, ?_, ?_, ?_, ?_, ?_, ?_, ?_, ?_⟩ <;>
      simp [CPUState.applyWB, hwb, hpc, hz, CPUState.updMap, hPCne]
    intro reg hne
    simp [hne]

/-- C10 (witness): in `c10state` the WB of 7 into `$t1` clears only the
MEM to WB latch; `$t0`, the availability table and the younger latches are
untouched. -/
theorem c10_wb_frame_witness :
    (CPUState.applyWB c10state).1.pipeline_wb = none
    ∧ (CPUState.applyWB c10state).1.registers rT0 = c10state.registers rT0
    ∧ (CPUState.applyWB c10state).1.registerAvailability
        = c10state.registerAvailability
    ∧ (CPUState.applyWB c10state).1.pipeline_ex = c10state.pipeline_ex := by
  have h := c10_wb_frame c10state
    { exId := 1, node := addNode, rdValue := 7, rdTarget := rT1 }
    rfl (by decide)
  exact ⟨h.2.2.2.1, h.2.2.2.2.2.2.1 rT0 (by decide), h.2.2.2.2.1, h.2.1⟩

/-- C5: the WB stage empties the three younger latches — emitting one
StageAdvance with stage `"*"` for each occupied one, in order MEM, EX, ID,
before the WB and exit events — and clears the availability table entirely,
exactly when the MEM to WB latch targets PC with a value different from the
current PC; in every other WB the younger latches, the availability table
and the event list (WB advance and pipeline exit only, no `"*"`) are
untouched.  Consequently, immediately after a branch-taken WB that changes
PC, all younger latches are empty and the availability table is empty. -/
theorem c5_branch_flush (s : CPUState) (ctx : EXContext)
    (hwb : s.pipeline_wb = some ctx) :
    ((ctx.rdTarget = rPC ∧ ctx.rdValue ≠ s.pcVal) →
      ((CPUState.applyWB s).1.pipeline_id = none
       ∧ (CPUState.applyWB s).1.pipeline_ex = none
       ∧ (CPUState.applyWB s).1.pipeline_mem = none
       ∧ (∀ r : Reg, (CPUState.applyWB s).1.registerAvailability r = none)
       ∧ (CPUState.applyWB s).2
           = (match s.pipeline_mem with
              | some m => [LogEvent.stageAdvance m.exId s.currentCycle "*"]
              | none => [])
             ++ (match s.pipeline_ex with
                 | some e => [LogEvent.stageAdvance e.exId s.currentCycle "*"]
                 | none => [])
             ++ (match s.pipeline_id with
                 | some i => [LogEvent.stageAdvance i.exId s.currentCycle "*"]
                 | none => [])
             ++ [LogEvent.stageAdvance ctx.exId s.currentCycle "WB",
                 LogEvent.pipelineExit ctx.exId s.currentCycle]))
    ∧ (¬(ctx.rdTarget = rPC ∧ ctx.rdValue ≠ s.pcVal) →
        ((CPUState.applyWB s).1.pipeline_id = s.pipeline_id
         ∧ (CPUState.applyWB s).1.pipeline_ex = s.pipeline_ex
         ∧ (CPUState.applyWB s).1.pipeline_mem = s.pipeline_mem
         ∧ (CPUState.applyWB s).1.registerAvailability = s.registerAvailability
         ∧ (CPUState.applyWB s).2
             = [LogEvent.stageAdvance ctx.exId s.currentCycle "WB",
                LogEvent.pipelineExit ctx.exId s.currentCycle])) := by
  have hsd : (CPUState.setdefaultMap s.registers rPC 0 rPC).getD 0 = s.pcVal := by
    simp [CPUState.setdefaultMap, CPUState.pcVal]
  constructor
  · rintro ⟨hp, hv⟩
    refine ⟨?_, ?_, ?_, ?_, ?_⟩ <;>
      simp [CPUState.applyWB, hwb, hp, hsd, hv]
  · intro hcond
    by_cases hp : ctx.rdTarget = rPC
    · have hv : ctx.rdValue = s.pcVal := by
        by_contra hne
        exact hcond ⟨hp, hne⟩
      refine ⟨?_, ?_, ?_, ?_, ?_⟩ <;>
        simp [CPUState.applyWB, hwb, hp, hsd, hv]
    · refine ⟨?_, ?_, ?_, ?_, ?_⟩ <;>
        simp [CPUState.applyWB, hwb, hp]

/-- C5 (witness): the taken-branch WB of `c5state` empties all three younger
latches, clears the `$t0` lock, and emits a `"*"` advance for each flushed
instruction before the WB events. -/
theorem c5_branch_flush_witness :
    (CPUState.applyWB c5state).1.pipeline_id = none
    ∧ (CPUState.applyWB c5state).1.pipeline_ex = none
    ∧ (CPUState.applyWB c5state).1.pipeline_mem = none
    ∧ (CPUState.applyWB c5state).1.registerAvailability rT0 = none
    ∧ (CPUState.applyWB c5state).2
        = [LogEvent.stageAdvance 3 6 "*", LogEvent.stageAdvance 4 6 "*",
           LogEvent.stageAdvance 5 6 "*", LogEvent.stageAdvance 2 6 "WB",
           LogEvent.pipelineExit 2 6] := by
  have h := (c5_branch_flush c5state
    { exId := 2, node := addNode, rdValue := 0, rdTarget := rPC } rfl).1
    ⟨rfl, by decide⟩
  refine ⟨h.1, h.2.1, h.2.2.1, h.2.2.2.1 rT0, ?_⟩
  rw [h.2.2.2.2]
  rfl

/-- Acquiring a register lock never touches the register file. -/
lemma acquire_registers (s : CPUState) (r : Reg) (d : Int) :
    (s.acquireRegisterLock r d).registers = s.registers := by
  unfold CPUState.acquireRegisterLock
  split <;> rfl

/-- Acquiring a register lock only touches the availability table. -/
lemma acquire_frame (s : CPUState) (r : Reg) (d : Int) :
    (s.acquireRegisterLock r d).currentCycle = s.currentCycle
    ∧ (s.acquireRegisterLock r d).pipeline_id = s.pipeline_id
    ∧ (s.acquireRegisterLock r d).pipeline_ex = s.pipeline_ex
    ∧ (s.acquireRegisterLock r d).pipeline_mem = s.pipeline_mem
    ∧ (s.acquireRegisterLock r d).pipeline_wb = s.pipeline_wb
    ∧ (s.acquireRegisterLock r d).instructions = s.instructions := by
  unfold CPUState.acquireRegisterLock
  split <;> exact ⟨rfl, rfl, rfl, rfl, rfl, rfl⟩

/-- The ID stage never touches the register file. -/
lemma applyID_registers (s : CPUState) :
    ((CPUState.applyID s).1).registers = s.registers := by
  unfold CPUState.applyID
  rcases s.pipeline_id with _ | c
  · rfl
  · by_cases he : s.pipeline_ex.isSome <;> simp [he]

/-- The MEM stage never touches the register file. -/
lemma applyMEM_registers (s : CPUState) :
    ((CPUState.applyMEM s).1).registers = s.registers := by
  unfold CPUState.applyMEM
  rcases s.pipeline_mem with _ | c
  · rfl
  · by_cases hw : s.pipeline_wb.isSome <;> simp [hw]

/-- The conditional lock acquisition of the EX stage keeps the register
file. -/
lemma ex_lock_registers (s : CPUState) (p : Prop) [Decidable p] (r : Reg)
    (d : Int) :
    (if p then s.acquireRegisterLock r d else s).registers
      = s.registers := by
  split <;> simp [acquire_registers]

/-- The conditional lock acquisition of the EX stage keeps the instruction
list. -/
lemma ex_lock_instructions (s : CPUState) (p : Prop) [Decidable p] (r : Reg)
    (d : Int) :
    (if p then s.acquireRegisterLock r d else s).instructions
      = s.instructions := by
  split <;> simp [(acquire_frame s r d).2.2.2.2.2]

/-- The EX stage never touches the register file. -/
lemma applyEX_registers (s : CPUState) :
    (CPUState.applyEX s).map (fun p => p.1.registers)
      = (CPUState.applyEX s).map (fun _ => s.registers) := by
  unfold CPUState.applyEX
  rcases hex : s.pipeline_ex with _ | ctx
  · rfl
  · dsimp
    by_cases h1 : (if s.forwarding = true then s.currentCycle
        else s.currentCycle - 1) < (s.getExInputs ctx.node).1
    · simp [h1]
    · by_cases h2 : s.pipeline_mem.isSome
      · simp [h1, h2]
      · rcases hce : CPUState.computeEx ctx.node.inst
            (s.getExInputs ctx.node).2.1 (s.getExInputs ctx.node).2.2
          with _ | result0
        · simp [h1, h2, hce]
        · by_cases hbr : ctx.node.inst.isBranch = true
          · by_cases hr0 : result0 = 0
            · simp [h1, h2, hce, hbr, hr0, ex_lock_registers]
            · simp only [h1, h2, hce, hbr, hr0, ex_lock_instructions,
                if_false, ite_false, Bool.false_eq_true]
              rcases hjt : CPUState.computeJumpTarget s.instructions
                  ctx.node.target with _ | t
              · simp [hjt]
              · simp [hjt, ex_lock_registers]
          · simp [h1, h2, hce, hbr, ex_lock_registers]

/-- The IF stage can only touch the PC entry of the register file. -/
lemma applyIF_registers_zero (s : CPUState) :
    (CPUState.applyIF s).map (fun p => p.1.registers rZERO)
      = (CPUState.applyIF s).map (fun _ => s.registers rZERO) := by
  unfold CPUState.applyIF
  by_cases hid : s.pipeline_id.isSome
  · simp [hid]
  · simp only [hid, Bool.false_eq_true, if_false, ite_false]
    split
    · simp [CPUState.setdefaultMap, rZERO, rPC]
    · split
      · rfl
      · simp [CPUState.updMap, CPUState.setdefaultMap, rZERO, rPC]

/-- The WB stage never changes the ZERO entry of the register file. -/
lemma applyWB_registers_zero (s : CPUState) :
    ((CPUState.applyWB s).1).registers rZERO = s.registers rZERO := by
  unfold CPUState.applyWB
  rcases hwb : s.pipeline_wb with _ | ctx
  · rfl
  · dsimp
    by_cases hp : ctx.rdTarget = rPC
    · simp only [hp, ite_true, if_pos rfl]
      split <;> split <;>
        simp_all [CPUState.updMap, CPUState.setdefaultMap, rZERO, rPC]
    · by_cases hz : ctx.rdTarget = rZERO
      · simp [hp, hz, rZERO, rPC]
      · simp [hp, hz, CPUState.updMap, Ne.symm hz]

/-- One CPU cycle never changes the ZERO entry of the register file. -/
lemma cycle_registers_zero (s s' : CPUState) (evs : List LogEvent)
    (h : CPUState.cycle s = some (s', evs)) :
    s'.registers rZERO = s.registers rZERO := by
  unfold CPUState.cycle at h
  dsimp only [] at h
  rcases hex : CPUState.applyEX (CPUState.applyMEM (CPUState.applyWB s).1).1
      with _ | p3
  · rw [hex] at h
    simp at h
  · have hex3 := applyEX_registers (CPUState.applyMEM (CPUState.applyWB s).1).1
    rw [hex] at hex3 h
    dsimp only at h
    simp only [Option.map_some'] at hex3
    rcases hif : CPUState.applyIF (CPUState.applyID p3.1).1 with _ | p5
    · rw [hif] at h
      simp at h
    · have hif5 := applyIF_registers_zero (CPUState.applyID p3.1).1
      rw [hif] at hif5 h
      dsimp only at h
      simp only [Option.map_some'] at hif5
      simp only [Option.some.injEq, Prod.mk.injEq] at h
      have h3 : p3.1.registers = ((CPUState.applyMEM (CPUState.applyWB s).1).1).registers :=
        Option.some.inj hex3
      have h5 : p5.1.registers rZERO = ((CPUState.applyID p3.1).1).registers rZERO :=
        Option.some.inj hif5
      have hs : s'.registers = p5.1.registers := by
        rw [← h.1]
      rw [hs, h5, applyID_registers, h3, applyMEM_registers,
        applyWB_registers_zero]

/-- Iterating cycles never changes the ZERO entry of the register file. -/
lemma runCycles_registers_zero :
    ∀ (n : Nat) (s : CPUState),
      (CPUState.runCycles n s).registers rZERO = s.registers rZERO := by
  intro n
  induction n with
  | zero => intro s; rfl
  | succ k ih =>
    intro s
    unfold CPUState.runCycles
    rcases hc : CPUState.cycle s with _ | p
    · rfl
    · rw [ih p.1, cycle_registers_zero s p.1 p.2 hc]

/-- C7: reads of ZERO always return 0 — in every state reachable by running
any instruction sequence from the initial CPU, the register file entry of
ZERO is untouched, and a WB whose latch targets ZERO leaves the entire
register file unchanged. -/
theorem c7_zero_register :
    (∀ (src : List Node) (fwd : Bool) (n : Nat),
        (CPUState.runCycles n (CPUState.init src fwd)).registerRead rZERO = 0)
    ∧ (∀ (s : CPUState) (ctx : EXContext),
        s.pipeline_wb = some ctx → ctx.rdTarget = rZERO →
          (CPUState.applyWB s).1.registers = s.registers) := by
  constructor
  · intro src fwd n
    unfold CPUState.registerRead
    rw [runCycles_registers_zero]
    rfl
  · intro s ctx hwb hz
    simp [CPUState.applyWB, hwb, hz, rZERO, rPC]

/-- C7 (witness): a WB of value 9 into ZERO leaves the register file of
`c7state` intact, and three cycles of the S2 program leave the ZERO read
at 0. -/
theorem c7_zero_register_witness :
    (CPUState.applyWB c7state).1.registers = c7state.registers
    ∧ (CPUState.runCycles 3 (CPUState.init c1prog false)).registerRead rZERO
        = 0 := by
  exact ⟨c7_zero_register.2 c7state
           { exId := 0, node := addNode, rdValue := 9, rdTarget := rZERO }
           rfl rfl,
         c7_zero_register.1 c1prog false 3⟩

/-- Acquiring a lock never lowers any availability entry. -/
lemma acquire_availability_mono (s : CPUState) (reg : Reg) (d : Int)
    (_hd : 0 ≤ d) (r : Reg) :
    (s.registerAvailability r).getD 0
      ≤ ((s.acquireRegisterLock reg d).registerAvailability r).getD 0 := by
  unfold CPUState.acquireRegisterLock
  split
  · exact le_refl _
  · dsimp [CPUState.updMap]
    by_cases hr : r = reg
    · simp only [hr, if_pos rfl, Option.getD_some]
      exact le_max_left _ _
    · simp [hr]

/-- A WB without a branch flush keeps the availability table. -/
lemma applyWB_availability_noflush (s : CPUState)
    (h : wbFlushes s = false) :
    ((CPUState.applyWB s).1).registerAvailability
      = s.registerAvailability := by
  unfold CPUState.applyWB
  rcases hwb : s.pipeline_wb with _ | ctx
  · rfl
  · unfold wbFlushes at h
    rw [hwb] at h
    simp only [Bool.and_eq_false_iff, decide_eq_false_iff_not] at h
    dsimp
    by_cases hp : ctx.rdTarget = rPC
    · have hv : ctx.rdValue = s.pcVal := by
        rcases h with h | h
        · exact absurd hp h
        · exact not_not.1 h
      have hsd : (CPUState.setdefaultMap s.registers rPC 0 rPC).getD 0
          = s.pcVal := by
        simp [CPUState.setdefaultMap, CPUState.pcVal]
      simp [hp, hsd, hv]
    · simp [hp]

/-- The MEM stage keeps the availability table. -/
lemma applyMEM_availability (s : CPUState) :
    ((CPUState.applyMEM s).1).registerAvailability
      = s.registerAvailability := by
  unfold CPUState.applyMEM
  rcases s.pipeline_mem with _ | c
  · rfl
  · by_cases hw : s.pipeline_wb.isSome <;> simp [hw]

/-- The ID stage keeps the availability table. -/
lemma applyID_availability (s : CPUState) :
    ((CPUState.applyID s).1).registerAvailability
      = s.registerAvailability := by
  unfold CPUState.applyID
  rcases s.pipeline_id with _ | c
  · rfl
  · by_cases he : s.pipeline_ex.isSome <;> simp [he]

/-- The IF stage keeps the availability table. -/
lemma applyIF_availability (s : CPUState) :
    (CPUState.applyIF s).map (fun p => p.1.registerAvailability)
      = (CPUState.applyIF s).map (fun _ => s.registerAvailability) := by
  unfold CPUState.applyIF
  by_cases hid : s.pipeline_id.isSome
  · simp [hid]
  · simp only [hid, Bool.false_eq_true, if_false, ite_false]
    split
    · rfl
    · split
      · rfl
      · rfl

/-- The EX stage never lowers any availability entry. -/
lemma applyEX_availability_mono (s : CPUState) :
    ∀ p ∈ CPUState.applyEX s, ∀ r : Reg,
      (s.registerAvailability r).getD 0
        ≤ ((p.1.registerAvailability r).getD 0) := by
  intro p hp r
  rw [Option.mem_def] at hp
  unfold CPUState.applyEX at hp
  rcases hex : s.pipeline_ex with _ | ctx <;> rw [hex] at hp
  · simp only [Option.some.injEq] at hp
    subst hp
    exact le_refl _
  · dsimp at hp
    by_cases h1 : (if s.forwarding = true then s.currentCycle
        else s.currentCycle - 1) < (s.getExInputs ctx.node).1
    · rw [if_pos h1] at hp
      simp only [Option.some.injEq] at hp
      subst hp
      exact le_refl _
    · rw [if_neg h1] at hp
      by_cases h2 : s.pipeline_mem.isSome
      · simp only [h2, if_true, ite_true, Option.some.injEq] at hp
        subst hp
        exact le_refl _
      · simp only [h2, Bool.false_eq_true, if_false, ite_false] at hp
        rcases hce : CPUState.computeEx ctx.node.inst
            (s.getExInputs ctx.node).2.1 (s.getExInputs ctx.node).2.2
          with _ | result0 <;> rw [hce] at hp
        · simp at hp
        · dsimp at hp
          simp only [ex_lock_instructions] at hp
          have mono : (s.registerAvailability r).getD 0
              ≤ (((if (ctx.node.inst.isArithmetic
                      || ctx.node.inst.isImmediate) = true then
                    s.acquireRegisterLock ctx.node.rd 2
                  else s).registerAvailability r).getD 0) := by
            split
            · exact acquire_availability_mono s ctx.node.rd 2 (by norm_num) r
            · exact le_refl _
          by_cases hbr : ctx.node.inst.isBranch = true
          · rw [if_pos hbr] at hp
            by_cases hr0 : result0 = 0
            · rw [if_neg (by simp [hr0])] at hp
              dsimp at hp
              simp only [Option.some.injEq] at hp
              subst hp
              exact mono
            · rw [if_pos hr0] at hp
              rcases hjt : CPUState.computeJumpTarget s.instructions
                  ctx.node.target with _ | t <;> rw [hjt] at hp
              · simp at hp
              · dsimp at hp
                simp only [Option.some.injEq] at hp
                subst hp
                exact mono
          · rw [if_neg hbr] at hp
            dsimp at hp
            simp only [Option.some.injEq] at hp
            subst hp
            exact mono

/-- A cycle without a branch flush never lowers any availability entry. -/
lemma cycle_availability_mono (s s' : CPUState) (evs : List LogEvent)
    (hnf : wbFlushes s = false) (h : CPUState.cycle s = some (s', evs))
    (r : Reg) :
    (s.registerAvailability r).getD 0
      ≤ (s'.registerAvailability r).getD 0 := by
  unfold CPUState.cycle at h
  dsimp only at h
  rcases hex : CPUState.applyEX (CPUState.applyMEM (CPUState.applyWB s).1).1
      with _ | p3 <;> rw [hex] at h
  · simp at h
  · dsimp only at h
    rcases hif : CPUState.applyIF (CPUState.applyID p3.1).1
        with _ | p5 <;> rw [hif] at h
    · simp at h
    · dsimp only at h
      simp only [Option.some.injEq, Prod.mk.injEq] at h
      have hs : s'.registerAvailability = p5.1.registerAvailability := by
        rw [← h.1]
      have h5 := applyIF_availability (CPUState.applyID p3.1).1
      rw [hif] at h5
      simp only [Option.map_some'] at h5
      have h5x : p5.1.registerAvailability
          = ((CPUState.applyID p3.1).1).registerAvailability :=
        Option.some.inj h5
      have hmono := applyEX_availability_mono
        (CPUState.applyMEM (CPUState.applyWB s).1).1 p3
        (by rw [Option.mem_def]; exact hex) r
      rw [hs, h5x, applyID_availability]
      have e1 : s.registerAvailability
          = ((CPUState.applyWB s).1).registerAvailability :=
        (applyWB_availability_noflush s hnf).symm
      have e2 : ((CPUState.applyWB s).1).registerAvailability
          = ((CPUState.applyMEM (CPUState.applyWB s).1).1).registerAvailability :=
        (applyMEM_availability _).symm
      rw [e1, e2]
      exact hmono

/-- C4: a completed arithmetic or immediate EX sets the availability entry
of its destination to `max(existing, currentCycle + 2)`; locks are never
acquired on ZERO or PC; and no operation lowers an availability entry —
within a cycle that performs no branch flush every entry is only raised (by
this max-update), the flush being the only full clear. -/
theorem c4_availability_locks :
    (∀ (s : CPUState) (reg : Reg) (d : Int), reg = rZERO ∨ reg = rPC →
        s.acquireRegisterLock reg d = s)
    ∧ (∀ (s : CPUState) (reg : Reg) (d : Int), reg ≠ rZERO → reg ≠ rPC →
        (s.acquireRegisterLock reg d).registerAvailability reg
          = some (max ((s.registerAvailability reg).getD 0)
                      (s.currentCycle + d))
        ∧ (∀ r : Reg, r ≠ reg →
            (s.acquireRegisterLock reg d).registerAvailability r
              = s.registerAvailability r))
    ∧ (∀ (s : CPUState) (ctx : IDContext),
        s.pipeline_ex = some ctx → s.pipeline_mem = none →
        combinedAvail s ctx.node ≤ exNow s →
        (ctx.node.inst.isArithmetic || ctx.node.inst.isImmediate) = true →
        ∃ s' evs, CPUState.applyEX s = some (s', evs)
          ∧ s'.registerAvailability
              = (s.acquireRegisterLock ctx.node.rd 2).registerAvailability)
    ∧ (∀ (s s' : CPUState) (evs : List LogEvent) (r : Reg),
        wbFlushes s = false → CPUState.cycle s = some (s', evs) →
        (s.registerAvailability r).getD 0
          ≤ (s'.registerAvailability r).getD 0) := by
  refine ⟨?_, ?_, ?_, ?_⟩
  · intro s reg d h
    unfold CPUState.acquireRegisterLock
    rw [if_pos h]
  · intro s reg d hz hp
    constructor
    · unfold CPUState.acquireRegisterLock
      rw [if_neg (by tauto)]
      simp [CPUState.updMap]
    · intro r hr
      unfold CPUState.acquireRegisterLock
      rw [if_neg (by tauto)]
      simp [CPUState.updMap, hr]
  · intro s ctx hex hmem hav ha
    have hnl : ¬ ((if s.forwarding = true then s.currentCycle
        else s.currentCycle - 1) < (s.getExInputs ctx.node).1) := by
      have hle := hav
      unfold combinedAvail exNow at hle
      exact not_lt.2 hle
    have hbr : ctx.node.inst.isBranch = false := by
      rcases hi : ctx.node.inst <;> rw [hi] at ha <;>
        simp_all [MIPSInstruction.isArithmetic, MIPSInstruction.isImmediate,
          MIPSInstruction.isBranch]
    have hcomp : ∃ v, CPUState.computeEx ctx.node.inst
        (s.getExInputs ctx.node).2.1 (s.getExInputs ctx.node).2.2 = some v := by
      rcases hi : ctx.node.inst <;> rw [hi] at ha <;>
        simp_all [MIPSInstruction.isArithmetic, MIPSInstruction.isImmediate,
          CPUState.computeEx]
    obtain ⟨v, hv⟩ := hcomp
    refine ⟨{ s.acquireRegisterLock ctx.node.rd 2 with
                pipeline_ex := none,
                pipeline_mem := some (EXContext.make ctx v ctx.rdTarget) },
            [.stageAdvance ctx.exId s.currentCycle "EX"], ?_, rfl⟩
    unfold CPUState.applyEX
    rw [hex]
    dsimp
    rw [if_neg hnl]
    simp only [hmem, Option.isSome_none, Bool.false_eq_true, if_false,
      ite_false, hv, ha, if_true, ite_true, hbr]
  · intro s s' evs r hnf h
    exact cycle_availability_mono s s' evs hnf h r

/-- C4 (witness): locking ZERO is a no-op; in `c4state` (cycle 3) the
completed `addi` raises the `$t0` entry to `max(0, 3 + 2) = 5`; and the
first cycle of the S2 program (no flush) lowers no entry. -/
theorem c4_availability_locks_witness :
    ((CPUState.init [] false).acquireRegisterLock rZERO 2).registerAvailability
        rZERO = none
    ∧ (CPUState.applyEX c4state).map
        (fun p => p.1.registerAvailability rT0) = some (some 5)
    ∧ ((CPUState.init c1prog false).registerAvailability rT0).getD 0
        ≤ ((((CPUState.cycle (CPUState.init c1prog false)).getD
              (CPUState.init c1prog false, [])).1.registerAvailability rT0).getD 0) := by
  refine ⟨?_, ?_, ?_⟩
  · rw [c4_availability_locks.1 (CPUState.init [] false) rZERO 2 (Or.inl rfl)]
    rfl
  · obtain ⟨s', evs, heq, havail⟩ :=
      c4_availability_locks.2.2.1 c4state
        { exId := 0, node := addiNode, rdTarget := rT0 }
        rfl rfl (by decide) (by decide)
    rw [heq]
    simp only [Option.map_some']
    rw [congrFun havail rT0]
    decide
  · rcases hc : CPUState.cycle (CPUState.init c1prog false) with _ | p
    · exfalso
      have hsome : (CPUState.cycle (CPUState.init c1prog false)).isSome = true := by
        decide
      rw [hc] at hsome
      simp at hsome
    · have hm := c4_availability_locks.2.2.2 (CPUState.init c1prog false)
        p.1 p.2 rT0 (by decide) hc
      simpa using hm

/-- The WB stage always leaves its own latch empty. -/
lemma applyWB_wb_none (s : CPUState) :
    ((CPUState.applyWB s).1).pipeline_wb = none := by
  unfold CPUState.applyWB
  rcases hwb : s.pipeline_wb with _ | ctx
  · exact hwb
  · rfl

/-- After WB and MEM have run, the EX to MEM latch is always empty: WB
drains MEM to WB unconditionally, so MEM always advances.  This is why the
structural-stall branch of the EX stage never fires inside a cycle. -/
lemma midEX_mem_none (s : CPUState) :
    (midEX s).pipeline_mem = none := by
  unfold midEX CPUState.applyMEM
  rcases hm : ((CPUState.applyWB s).1).pipeline_mem with _ | c
  · simpa using hm
  · have hw := applyWB_wb_none s
    simp [hm, hw]

/-- A ready EX stage with an empty EX to MEM latch that does not abort moves
its instruction into EX to MEM, clearing ID to EX and emitting one
StageAdvance EX event. -/
lemma applyEX_ready_executes (t : CPUState) (ctx : IDContext)
    (hex : t.pipeline_ex = some ctx) (hmem : t.pipeline_mem = none)
    (hready : ¬ ((if t.forwarding = true then t.currentCycle
        else t.currentCycle - 1) < (t.getExInputs ctx.node).1)) :
    ∀ p ∈ CPUState.applyEX t,
      p.1.pipeline_ex = none ∧ p.1.pipeline_mem.isSome = true
        ∧ p.2 = [LogEvent.stageAdvance ctx.exId t.currentCycle "EX"] := by
  intro p hp
  rw [Option.mem_def] at hp
  unfold CPUState.applyEX at hp
  rw [hex] at hp
  dsimp at hp
  rw [if_neg hready] at hp
  simp only [hmem, Option.isSome_none, Bool.false_eq_true, if_false,
    ite_false] at hp
  rcases hce : CPUState.computeEx ctx.node.inst
      (t.getExInputs ctx.node).2.1 (t.getExInputs ctx.node).2.2
    with _ | v <;> rw [hce] at hp
  · simp at hp
  · dsimp at hp
    simp only [ex_lock_instructions] at hp
    by_cases hbr : ctx.node.inst.isBranch = true
    · rw [if_pos hbr] at hp
      by_cases hv0 : v = 0
      · rw [if_neg (by simp [hv0])] at hp
        dsimp at hp
        simp only [Option.some.injEq] at hp
        subst hp
        exact ⟨rfl, rfl, rfl⟩
      · rw [if_pos hv0] at hp
        rcases hjt : CPUState.computeJumpTarget t.instructions
            ctx.node.target with _ | tgt <;> rw [hjt] at hp
        · simp at hp
        · dsimp at hp
          simp only [Option.some.injEq] at hp
          subst hp
          exact ⟨rfl, rfl, rfl⟩
    · rw [if_neg hbr] at hp
      dsimp at hp
      simp only [Option.some.injEq] at hp
      subst hp
      exact ⟨rfl, rfl, rfl⟩

/-- C2 (counterexample): in `c2cex` — reachable by running the program
consisting only of `beq $t0,$t0,END` with no label `END` — the ID to EX
latch is occupied, WB and MEM leave the state untouched, and the combined
availability 0 is within the readiness threshold; yet the EX stage neither
executes the instruction nor emits any PipelineStall event: resolving the
taken-branch target raises an error aborting the simulation (`applyEX`
returns `none`).  This refutes both directions of the claim: ready but not
executed, and not executed without a stall event. -/
theorem c2_ready_but_aborts :
    midEX c2cex = c2cex
    ∧ c2cex.pipeline_ex
        = some { exId := 0, node := beqMissingNode, rdTarget := rPC }
    ∧ combinedAvail c2cex beqMissingNode ≤ exNow c2cex
    ∧ CPUState.applyEX c2cex = none := by
  exact ⟨rfl, rfl, by decide, rfl⟩

/-- C2 (amended): in every cycle the EX stage observes an empty EX to MEM
latch (WB drains unconditionally, then MEM always advances).  Provided the
stage does not abort on a fatal error (a NOP at EX or an unresolvable
taken-branch target ends the simulation instead), it executes the
instruction in the ID to EX latch if and only if the combined operand
availability is at most `currentCycle` with forwarding, or
`currentCycle - 1` without; when the operands are not ready it leaves every
latch and all register state unchanged except for raising the stalled flag,
and emits exactly one PipelineStall event with stage ID whose stalls field
is `available - now` on the first stall of the instance and 0 afterwards. -/
theorem c2_ex_execute_or_stall (s : CPUState) (ctx : IDContext)
    (hex : (midEX s).pipeline_ex = some ctx)
    (hok : CPUState.applyEX (midEX s) ≠ none) :
    (midEX s).pipeline_mem = none
    ∧ ((∃ p, CPUState.applyEX (midEX s) = some p
          ∧ p.1.pipeline_ex = none ∧ p.1.pipeline_mem.isSome = true)
        ↔ combinedAvail (midEX s) ctx.node ≤ exNow (midEX s))
    ∧ (exNow (midEX s) < combinedAvail (midEX s) ctx.node →
        CPUState.applyEX (midEX s)
          = some ({ midEX s with
                      pipeline_ex := some { ctx with stalled := true } },
                  [LogEvent.pipelineStall ctx.exId (midEX s).currentCycle "ID"
                     (if ctx.stalled then 0
                      else combinedAvail (midEX s) ctx.node
                             - exNow (midEX s))])) := by
  have hmem : (midEX s).pipeline_mem = none := midEX_mem_none s
  have hstall : ∀ hlt : (if (midEX s).forwarding = true
        then (midEX s).currentCycle
        else (midEX s).currentCycle - 1) < ((midEX s).getExInputs ctx.node).1,
      CPUState.applyEX (midEX s)
        = some ({ midEX s with
                    pipeline_ex := some { ctx with stalled := true } },
                [LogEvent.pipelineStall ctx.exId (midEX s).currentCycle "ID"
                   (if ctx.stalled then 0
                    else combinedAvail (midEX s) ctx.node
                           - exNow (midEX s))]) := by
    intro hlt
    unfold CPUState.applyEX
    rw [hex]
    dsimp
    rw [if_pos hlt]
    unfold combinedAvail exNow
    cases hs : ctx.stalled <;> simp [hs]
  refine ⟨hmem, ?_, fun hlt => hstall hlt⟩
  by_cases hlt : (if (midEX s).forwarding = true then (midEX s).currentCycle
      else (midEX s).currentCycle - 1) < ((midEX s).getExInputs ctx.node).1
  · constructor
    · rintro ⟨p, hp, -, hpm⟩
      rw [hstall hlt] at hp
      simp only [Option.some.injEq] at hp
      rw [← hp] at hpm
      dsimp at hpm
      rw [hmem] at hpm
      simp at hpm
    · intro hle
      exact absurd hlt (not_lt.2 hle)
  · have hle : combinedAvail (midEX s) ctx.node ≤ exNow (midEX s) :=
      not_lt.1 hlt
    constructor
    · intro _
      exact hle
    · intro _
      rcases hres : CPUState.applyEX (midEX s) with _ | p
      · exact absurd hres hok
      · have hfields := applyEX_ready_executes (midEX s) ctx hex hmem hlt p
          (by rw [Option.mem_def]; exact hres)
        exact ⟨p, rfl, hfields.1, hfields.2.1⟩

/-- C2 (witness): in `c2state` (no forwarding, cycle 5, `$t0` locked until
cycle 9) the EX stage stalls: the first stall emits
`PipelineStall{1, 5, "ID", 5}` (stalls = 9 - 4) and sets the stalled flag. -/
theorem c2_ex_execute_or_stall_witness :
    (midEX c2state).pipeline_mem = none
    ∧ (CPUState.applyEX (midEX c2state)).map (fun p => p.2)
        = some [LogEvent.pipelineStall 1 5 "ID" 5]
    ∧ (CPUState.applyEX (midEX c2state)).map (fun p => p.1.pipeline_ex)
        = some (some { exId := 1, node := addNode, rdTarget := rT1,
                       stalled := true }) := by
  have h := c2_ex_execute_or_stall c2state
    { exId := 1, node := addNode, rdTarget := rT1 }
    rfl (Option.ne_none_iff_isSome.2 (by decide))
  have h3 := h.2.2 (by decide)
  refine ⟨h.1, ?_, ?_⟩ <;> rw [h3] <;> rfl
